import Mathlib

/-!
Shallow embedding of `src/Atendens.py`, a pandas/Streamlit attendance
bookkeeping tool, together with proofs of the specification's claims.

Modelling conventions:
* `pd.read_csv` (no `dtype=str`) turns every empty cell of the stored file
  into the float missing value `NaN`; `load_data` models this coercion
  explicitly through `PdCell` / `readCell`.  A loaded frame therefore never
  holds an empty-string cell, so in the rest of the development a loaded
  DataFrame is a `Store`, a list of `Row`s in file order whose `String`
  fields encode `NaN` as the empty string (an isomorphic encoding of the
  loaded data).  The guarded uses of fields (`notna()` with `!= ""`,
  `dropna`, `isin`) read the empty string as missing; the one unguarded
  pandas `==` of the program, in `delete_attendance_record`, is embedded by
  `pdEq`, which is false whenever either side is missing.
* Each operation of the program performs `load_data`, a pure transformation
  and `save_data`; operations are modelled as pure functions from the loaded
  `Store` to the saved `Store` (plus their return value).  `datetime.now()`
  is passed in as explicit `date_str` / `time_str` arguments.
* `import_csv` manipulates DataFrames with arbitrary column sets, so it is
  modelled over `Table` (a header plus rows of cells); `pd.concat` and
  `drop_duplicates` are embedded as `pd_concat` and `dropDuplicates`;
  `export_csv` serializes the loaded table as-is, extra columns included.
-/

/-- One attendance record: the four cells of a line of
`attendance_records.csv` (header `Student Name,Date,Time,Status`). -/
structure Row where
  studentName : String
  date : String
  time : String
  status : String
deriving DecidableEq, Repr

/-- The full contents of the canonical store, in file order. -/
abbrev Store := List Row

/-- `CSV_FIELDS = ["Student Name", "Date", "Time", "Status"]`. -/
def CSV_FIELDS : List String := ["Student Name", "Date", "Time", "Status"]

/-! ### Python `str.strip`

`name.strip()` removes leading and trailing whitespace.  We embed it directly
on the character list: drop leading whitespace, then drop trailing
whitespace (via `dropTrailWs`). -/

/-- Remove trailing whitespace characters from a character list. -/
def dropTrailWs : List Char → List Char
  | [] => []
  | c :: cs =>
    match dropTrailWs cs with
    | [] => if c.isWhitespace then [] else [c]
    | r => c :: r

/-- Embedding of Python `s.strip()`. -/
def pyStrip (s : String) : String :=
  ⟨dropTrailWs (s.data.dropWhile Char.isWhitespace)⟩

/-! ### Record store: `load_data` / `save_data`

`load_data` reads `attendance_records.csv`; if the file does not exist it
first creates it with the header `CSV_FIELDS` and no rows.  We model the
file system cell as `Option CsvFile` and return both the file state after
the call and the loaded rows. -/

/-- Embedding of `add_student`: if `name` is not among the store's
`Student Name` values, append the placeholder row `{name, "", "", ""}` and
persist, returning `True`; otherwise return `False` without mutation. -/
def add_student (name : String) (df : Store) : Store × Bool :=
  if name ∈ df.map Row.studentName then (df, false)
  else (df ++ [⟨name, "", "", ""⟩], true)

/-- Embedding of `validate_student_name`: the name must be a non-empty
string whose `strip()` is non-empty. -/
def validate_student_name (name : String) : Bool :=
  name ≠ "" && pyStrip name ≠ ""

/-- Outcome of the registration flow. -/
inductive RegisterResult where
  | Added
  | AlreadyExists
  | InvalidName
deriving DecidableEq, Repr

/-- The spec's `registerStudent`: the "Add Student" flow of the UI
(`src/Atendens.py` lines 154-161), which validates with
`validate_student_name` and on success calls `add_student(name.strip())`. -/
def registerStudent (name : String) (df : Store) : Store × RegisterResult :=
  if validate_student_name name then
    let r := add_student (pyStrip name) df
    (r.1, if r.2 then RegisterResult.Added else RegisterResult.AlreadyExists)
  else (df, RegisterResult.InvalidName)

/-- Embedding of `get_students`: distinct `Student Name` values (missing
values dropped), kept only when their `strip()` is non-empty, sorted
ascending.  (`List.dedup` keeps one copy per distinct value, and the result
is sorted, exactly as `sorted(...unique()...)`.) -/
def get_students (df : Store) : List String :=
  List.insertionSort (· ≤ ·)
    (((df.map Row.studentName).dedup).filter (fun s => decide (pyStrip s ≠ "")))

/-! ### Attendance recorder -/

/-- The `already_marked` row predicate of `mark_attendance`: same student,
same date, and status in `{Present, Absent}`. -/
def isMark (name date_str : String) (r : Row) : Bool :=
  r.studentName == name && r.date == date_str &&
    (r.status == "Present" || r.status == "Absent")

/-- Embedding of `mark_attendance`.  `date_str` / `time_str` stand for the
strftime renderings of `datetime.now()`.  If some row already matches
`isMark name date_str`, return `False` with no mutation; otherwise append
`{name, date_str, time_str, status}` and return `True`. -/
def mark_attendance (name status date_str time_str : String) (df : Store) :
    Store × Bool :=
  if df.any (isMark name date_str) then (df, false)
  else (df ++ [⟨name, date_str, time_str, status⟩], true)

/-- Embedding of `get_attendance_history`: the rows of the student whose
date is present and non-empty. -/
def get_attendance_history (name : String) (df : Store) : Store :=
  df.filter (fun r => r.studentName == name && r.date != "")

/-- pandas `==` between a loaded cell and a given value: a missing value
(`NaN`, encoded as the empty string) on either side never compares equal.
(`a == b && a != ""` also forces `b` non-empty.) -/
def pdEq (a b : String) : Bool :=
  a == b && a != ""

/-- Embedding of `delete_attendance_record`: keep exactly the rows on
which the four pandas `==` comparisons against the given values do not all
hold.  A row field loaded as `NaN` — a placeholder cell, or a missing time
of an imported row — satisfies no comparison, and neither does a missing
argument (the dashboard passes `rec["Time"]`, which can be `NaN`). -/
def delete_attendance_record (student_name date time status : String)
    (df : Store) : Store :=
  df.filter (fun r => !(pdEq r.studentName student_name &&
    pdEq r.date date && pdEq r.time time && pdEq r.status status))

/-! ### Aggregator -/

/-- One output line of the statistics DataFrame
(`["Student Name", "Present", "Absent", "Attendance %"]`). -/
structure StatRow where
  studentName : String
  present : Nat
  absent : Nat
  pct : ℚ
deriving DecidableEq, Repr

/-- `df.groupby(["Student Name", "Status"]).size()` looked up at
`(name, status)`: how many rows carry that student and that status. -/
def statusCount (d : Store) (name status : String) : Nat :=
  (d.filter (fun r => r.studentName == name && r.status == status)).length

/-- The grouping step shared by the three statistics functions: group the
(already filtered) rows by student and status, read off the `Present` and
`Absent` counts per student and the percentage `present/(present+absent)*100`
(a pandas float; embedded in `ℚ`).  `groupby` silently drops rows whose
`Student Name` or `Status` is missing (`NaN`, i.e. `""` in this model), so
the students reported are the distinct non-missing names among rows with a
non-missing status; `groupby` sorts the group keys ascending. -/
def statsFrom (d : Store) : List StatRow :=
  let keyed := d.filter (fun r => r.studentName != "" && r.status != "")
  (List.insertionSort (· ≤ ·) (keyed.map Row.studentName).dedup).map (fun s =>
    let p := statusCount d s "Present"
    let a := statusCount d s "Absent"
    ⟨s, p, a, (p : ℚ) / ((p : ℚ) + (a : ℚ)) * 100⟩)

/-- The `df[df["Date"].notna() & (df["Date"] != "")]` filter. -/
def datedRows (df : Store) : Store :=
  df.filter (fun r => r.date != "")

/-- Embedding of `attendance_stats` (the spec's `overallStats`). -/
def attendance_stats (df : Store) : List StatRow :=
  statsFrom (datedRows df)

/-- Numeric value of a decimal digit character. -/
def digitVal (c : Char) : Nat := c.toNat - 48

/-- Days of a month, with the Gregorian leap rule for February. -/
def daysInMonth (y m : Nat) : Nat :=
  if m = 2 then
    if y % 4 = 0 && (y % 100 ≠ 0 || y % 400 = 0) then 29 else 28
  else if m = 4 || m = 6 || m = 9 || m = 11 then 30
  else 31

/-- Embedding of `pd.to_datetime(_, errors="coerce")` on the store's
canonical `YYYY-MM-DD` date strings (the format `mark_attendance` writes):
a valid calendar date parses to `(year, month, day)`, anything else
coerces to `NaT` (`none`). -/
def parseDate (s : String) : Option (Nat × Nat × Nat) :=
  match s.data with
  | [y1, y2, y3, y4, h1, m1, m2, h2, d1, d2] =>
    if y1.isDigit && y2.isDigit && y3.isDigit && y4.isDigit && h1 == '-' &&
        m1.isDigit && m2.isDigit && h2 == '-' && d1.isDigit && d2.isDigit then
      let y := 1000 * digitVal y1 + 100 * digitVal y2 + 10 * digitVal y3 +
        digitVal y4
      let m := 10 * digitVal m1 + digitVal m2
      let d := 10 * digitVal d1 + digitVal d2
      if 1 ≤ m && m ≤ 12 && 1 ≤ d && d ≤ daysInMonth y m then
        some (y, m, d)
      else none
    else none
  | _ => none

/-- Embedding of `attendance_stats_by_month` (the spec's `statsByMonth`):
keep the dated rows whose parsed date has the given month and year (parse
failures compare false against both and drop out), then aggregate. -/
def attendance_stats_by_month (month year : Nat) (df : Store) :
    List StatRow :=
  statsFrom ((datedRows df).filter (fun r =>
    match parseDate r.date with
    | some (y, m, _) => m == month && y == year
    | none => false))

/-- Embedding of `attendance_stats_by_year` (the spec's `statsByYear`). -/
def attendance_stats_by_year (year : Nat) (df : Store) : List StatRow :=
  statsFrom ((datedRows df).filter (fun r =>
    match parseDate r.date with
    | some (y, _, _) => y == year
    | none => false))

/-! ### Import / export: general DataFrames

`import_csv` concatenates the store with an uploaded DataFrame that may
carry extra columns, so here DataFrames are embedded as a column list plus
rows of cells addressed by column name.  A missing cell (a column absent
from the frame the row came from, or an empty CSV cell) is `""`
(standing for `NaN`; `drop_duplicates` treats `NaN` cells as equal). -/

/-- A pandas DataFrame: column names and row-major cells. -/
structure Table where
  cols : List String
  cells : List (List String)
deriving DecidableEq, Repr

/-- The cell of row `row` (laid out along columns `cs`) at column `c`. -/
def cellAt (cs : List String) (row : List String) (c : String) : String :=
  match cs.indexOf? c with
  | some i => row.getD i ""
  | none => ""

/-- Reindex a row from columns `cs` to columns `target`
(missing columns become `NaN`, i.e. `""`). -/
def reindexRow (cs target : List String) (row : List String) : List String :=
  target.map (cellAt cs row)

/-- Column union in `pd.concat` order: the first frame's columns, then the
second frame's new columns. -/
def unionCols (c1 c2 : List String) : List String :=
  c1 ++ c2.filter (fun c => decide (c ∉ c1))

/-- Embedding of `pd.concat([t1, t2], ignore_index=True)`: align both
frames on the union of their columns and stack the rows. -/
def pd_concat (t1 t2 : Table) : Table :=
  let cs := unionCols t1.cols t2.cols
  ⟨cs, t1.cells.map (reindexRow t1.cols cs) ++ t2.cells.map (reindexRow t2.cols cs)⟩

/-- The loop of `drop_duplicates`: emit each value not seen before,
remembering emitted values in `seen`. -/
def dropDupAux {α : Type} [DecidableEq α] (seen : List α) : List α → List α
  | [] => []
  | x :: xs =>
    if x ∈ seen then dropDupAux seen xs
    else x :: dropDupAux (x :: seen) xs

/-- Embedding of `DataFrame.drop_duplicates()`: keep the first occurrence
of every row value, in order. -/
def dropDuplicates {α : Type} [DecidableEq α] (l : List α) : List α :=
  dropDupAux [] l

/-- The cell row a `Row` prints as, in `CSV_FIELDS` order. -/
def rowCells (r : Row) : List String :=
  [r.studentName, r.date, r.time, r.status]

/-- The canonical-store DataFrame of a `Store`: the four columns
`CSV_FIELDS` with one cell row per record. -/
def storeTable (df : Store) : Table :=
  ⟨CSV_FIELDS, df.map rowCells⟩

/-- Read a general `Table` back as a `Store` through the four canonical
columns (what `load_data` yields once the table has been persisted). -/
def Table.toStore (t : Table) : Store :=
  t.cells.map (fun row =>
    ⟨cellAt t.cols row "Student Name", cellAt t.cols row "Date",
     cellAt t.cols row "Time", cellAt t.cols row "Status"⟩)

/-- Embedding of `import_csv` on an already-parsed upload: if the four
required columns all occur in the upload, persist
`pd.concat([orig, uploaded]).drop_duplicates()` and report success;
otherwise report the schema mismatch and leave the store untouched. -/
def import_csv (uploaded : Table) (orig : Table) : Table × Bool × String :=
  if CSV_FIELDS.all (fun c => uploaded.cols.contains c) then
    let combined := pd_concat orig uploaded
    (⟨combined.cols, dropDuplicates combined.cells⟩, true, "Import successful.")
  else (orig, false, "CSV schema mismatch.")

/-- Embedding of `export_csv`: serialize the loaded DataFrame as-is,
header first — including any extra columns a prior import persisted.  The
serialized text is embedded as the table it prints; writing a loaded
table out and reading it back is the identity in this encoding (missing
cells print as empty cells and read back as missing). -/
def export_csv (df : Table) : Table :=
  df

/-! ### The one-mark-per-day invariant -/

/-- The rows that count as an attendance mark of `name` on `date`:
matching student, matching date, status in `{Present, Absent}` (the
predicate of the `already_marked` check). -/
def marksFor (name date : String) (df : Store) : Store :=
  df.filter (isMark name date)

/-- The spec's invariant: for every `(studentName, date)` pair with a
non-empty date, at most one row has status in `{Present, Absent}`. -/
def AtMostOneMark (df : Store) : Prop :=
  ∀ name date : String, date ≠ "" → (marksFor name date df).length ≤ 1

/-- Stores reachable from the empty store through the registry, recorder
and delete operations (import is deliberately absent: see the C1
counterexample). -/
inductive ReachableStore : Store → Prop where
  | init : ReachableStore []
  | register (name : String) {s : Store} (h : ReachableStore s) :
      ReachableStore (registerStudent name s).1
  | mark (name status date_str time_str : String) {s : Store}
      (h : ReachableStore s) :
      ReachableStore (mark_attendance name status date_str time_str s).1
  | delete (student_name date time status : String) {s : Store}
      (h : ReachableStore s) :
      ReachableStore (delete_attendance_record student_name date time status s)

/-! ### Helper lemmas -/

theorem dropTrailWs_eq_nil_iff (l : List Char) :
    dropTrailWs l = [] ↔ ∀ c ∈ l, c.isWhitespace := by
  induction l with
  | nil => simp [dropTrailWs]
  | cons c cs ih =>
    rw [dropTrailWs]
    rcases h : dropTrailWs cs with _ | ⟨r, rs⟩
    · rw [h] at ih
      have hcs : ∀ x ∈ cs, x.isWhitespace := ih.mp rfl
      by_cases hw : c.isWhitespace
      · simp only [hw, if_true, true_iff]
        intro x hx
        rcases List.mem_cons.mp hx with rfl | hx'
        · exact hw
        · exact hcs _ hx'
      · simp only [hw]
        constructor
        · intro hc; exact absurd hc (by simp)
        · intro hall; exact absurd (hall c (List.mem_cons_self c cs)) (by simp [hw])
    · simp only [List.mem_cons]
      constructor
      · intro hc; exact absurd hc (by simp)
      · intro hall
        have : dropTrailWs cs = [] := (ih).mpr fun x hx => hall x (Or.inr hx)
        rw [this] at h; exact absurd h (by simp)

theorem head?_dropTrailWs (l : List Char) :
    dropTrailWs l = [] ∨ (dropTrailWs l).head? = l.head? := by
  cases l with
  | nil => left; rfl
  | cons c cs =>
    rw [dropTrailWs]
    rcases dropTrailWs cs with _ | ⟨r, rs⟩
    · by_cases hw : c.isWhitespace <;> simp [hw]
    · right; rfl

theorem dropTrailWs_idem (l : List Char) :
    dropTrailWs (dropTrailWs l) = dropTrailWs l := by
  induction l with
  | nil => rfl
  | cons c cs ih =>
    rw [dropTrailWs]
    rcases h : dropTrailWs cs with _ | ⟨r, rs⟩
    · by_cases hw : c.isWhitespace
      · simp [hw, dropTrailWs]
      · simp [hw, dropTrailWs]
    · rw [dropTrailWs]
      rw [h] at ih; rw [ih]

theorem dropWhile_head_not {p : Char → Bool} {l : List Char} :
    ∀ c ∈ (l.dropWhile p).head?, ¬ p c := by
  intro c hc
  rcases h : l.dropWhile p with _ | ⟨x, xs⟩
  · rw [h] at hc; simp at hc
  · rw [h] at hc
    simp only [List.head?_cons, Option.mem_def, Option.some.injEq] at hc
    subst hc
    have := List.head_dropWhile_not p (l := l) (by simp [h])
    simpa [h] using this

/-- `pyStrip` is idempotent. -/
theorem pyStrip_idem (s : String) : pyStrip (pyStrip s) = pyStrip s := by
  have hdw : (dropTrailWs (s.data.dropWhile Char.isWhitespace)).dropWhile
      Char.isWhitespace = dropTrailWs (s.data.dropWhile Char.isWhitespace) := by
    rcases head?_dropTrailWs (s.data.dropWhile Char.isWhitespace) with h | h
    · rw [h]; rfl
    · rcases hm : dropTrailWs (s.data.dropWhile Char.isWhitespace) with _ | ⟨x, xs⟩
      · rfl
      · rw [hm] at h
        have hx : x ∈ (s.data.dropWhile Char.isWhitespace).head? := by
          rw [← h]; rfl
        have hw := dropWhile_head_not x hx
        simp [hw]
  show String.mk (dropTrailWs ((dropTrailWs
      (s.data.dropWhile Char.isWhitespace)).dropWhile Char.isWhitespace)) = _
  rw [hdw, dropTrailWs_idem]
  rfl

theorem pyStrip_eq_empty_iff (s : String) :
    pyStrip s = "" ↔ ∀ c ∈ s.data, c.isWhitespace := by
  constructor
  · intro h c hc
    have hnil : dropTrailWs (s.data.dropWhile Char.isWhitespace) = [] := by
      have := congrArg String.data h
      simpa [pyStrip] using this
    by_contra hw
    have hmem : c ∈ s.data.takeWhile Char.isWhitespace ++
        s.data.dropWhile Char.isWhitespace := by
      rw [List.takeWhile_append_dropWhile]; exact hc
    rcases List.mem_append.mp hmem with h1 | h1
    · exact hw (List.mem_takeWhile_imp h1)
    · exact hw ((dropTrailWs_eq_nil_iff _).mp hnil c h1)
  · intro h
    have : s.data.dropWhile Char.isWhitespace = [] :=
      List.dropWhile_eq_nil_iff.mpr h
    simp [pyStrip, this, dropTrailWs]


theorem dropDupAux_congr {α : Type} [DecidableEq α] {s₁ s₂ : List α}
    (h : ∀ a : α, a ∈ s₁ ↔ a ∈ s₂) (xs : List α) :
    dropDupAux s₁ xs = dropDupAux s₂ xs := by
  induction xs generalizing s₁ s₂ with
  | nil => rfl
  | cons y ys ih =>
    rw [dropDupAux, dropDupAux]
    by_cases hy : y ∈ s₁
    · rw [if_pos hy, if_pos ((h y).mp hy)]
      exact ih h
    · rw [if_neg hy, if_neg (fun hc => hy ((h y).mpr hc))]
      congr 1
      apply ih
      intro a
      simp only [List.mem_cons]
      exact or_congr Iff.rfl (h a)

theorem dropDupAux_cons_seen {α : Type} [DecidableEq α] (x : α)
    (xs : List α) : ∀ seen : List α,
    dropDupAux (x :: seen) xs =
      dropDupAux seen (xs.filter (fun y => decide (y ≠ x))) := by
  induction xs with
  | nil => intro seen; rfl
  | cons y ys ih =>
    intro seen
    by_cases hyx : y = x
    · subst hyx
      rw [dropDupAux, if_pos (List.mem_cons_self y seen)]
      have hfil : (y :: ys).filter (fun z => decide (z ≠ y)) =
          ys.filter (fun z => decide (z ≠ y)) := by
        simp [List.filter_cons]
      rw [hfil]
      exact ih seen
    · have hfil : (y :: ys).filter (fun z => decide (z ≠ x)) =
          y :: ys.filter (fun z => decide (z ≠ x)) := by
        simp [List.filter_cons, hyx]
      rw [dropDupAux, hfil, dropDupAux]
      by_cases hy : y ∈ seen
      · rw [if_pos (by simp [hy]), if_pos hy]
        exact ih seen
      · rw [if_neg (by simp [hy, hyx]), if_neg hy]
        congr 1
        calc dropDupAux (y :: x :: seen) ys
            = dropDupAux (x :: y :: seen) ys := by
              apply dropDupAux_congr
              intro a
              simp only [List.mem_cons]
              tauto
          _ = dropDupAux (y :: seen)
                (ys.filter (fun z => decide (z ≠ x))) := ih (y :: seen)

theorem dropDuplicates_nil {α : Type} [DecidableEq α] :
    dropDuplicates ([] : List α) = [] := rfl

theorem dropDuplicates_cons {α : Type} [DecidableEq α] (x : α)
    (xs : List α) :
    dropDuplicates (x :: xs) =
      x :: dropDuplicates (xs.filter (fun y => decide (y ≠ x))) := by
  show dropDupAux [] (x :: xs) = _
  rw [dropDupAux, if_neg (List.not_mem_nil x)]
  congr 1
  exact dropDupAux_cons_seen x xs []

theorem dropDuplicates_rec {α : Type} [DecidableEq α] {P : List α → Prop}
    (h0 : P [])
    (h1 : ∀ x xs, P (xs.filter (fun y => decide (y ≠ x))) → P (x :: xs)) :
    ∀ l, P l
  | [] => h0
  | x :: xs =>
    h1 x xs (dropDuplicates_rec h0 h1 (xs.filter (fun y => decide (y ≠ x))))
  termination_by l => l.length
  decreasing_by
    simp only [List.length_cons]
    exact Nat.lt_succ_of_le (List.length_filter_le _ xs)

theorem mem_dropDuplicates {α : Type} [DecidableEq α] (a : α) (l : List α) :
    a ∈ dropDuplicates l ↔ a ∈ l := by
  induction l using dropDuplicates_rec with
  | h0 => simp [dropDuplicates_nil]
  | h1 x xs ih =>
    rw [dropDuplicates_cons]
    simp only [List.mem_cons, ih, List.mem_filter, decide_eq_true_eq]
    constructor
    · rintro (rfl | ⟨h, _⟩)
      · exact Or.inl rfl
      · exact Or.inr h
    · rintro (rfl | h)
      · exact Or.inl rfl
      · by_cases hax : a = x
        · exact Or.inl hax
        · exact Or.inr ⟨h, hax⟩

theorem count_dropDuplicates {α : Type} [DecidableEq α] (a : α) (l : List α) :
    (dropDuplicates l).count a = if a ∈ l then 1 else 0 := by
  induction l using dropDuplicates_rec with
  | h0 => simp [dropDuplicates_nil]
  | h1 x xs ih =>
    rw [dropDuplicates_cons, List.count_cons, ih]
    by_cases hax : a = x
    · subst hax
      simp [List.mem_filter]
    · have hxa : ¬x = a := fun h => hax h.symm
      simp only [List.mem_filter, decide_eq_true_eq, List.mem_cons, hax,
        false_or, if_neg hax]
      by_cases hm : a ∈ xs <;> simp [hm, hax, hxa]

theorem dropDuplicates_map_injective {α β : Type} [DecidableEq α]
    [DecidableEq β] (f : α → β) (hf : Function.Injective f) (l : List α) :
    dropDuplicates (l.map f) = (dropDuplicates l).map f := by
  induction l using dropDuplicates_rec with
  | h0 => simp [dropDuplicates_nil]
  | h1 x xs ih =>
    rw [List.map_cons, dropDuplicates_cons, dropDuplicates_cons,
      List.map_cons]
    congr 1
    have hpred : ((fun y => decide (y ≠ f x)) ∘ f) =
        (fun y => decide (y ≠ x)) := by
      funext y
      simp [Function.comp, hf.ne_iff]
    rw [List.filter_map, hpred, ih]

theorem rowCells_injective : Function.Injective rowCells := by
  intro a b h
  simp only [rowCells, List.cons.injEq, and_true] at h
  obtain ⟨h1, h2, h3, h4⟩ := h
  cases a; cases b; simp_all

theorem reindexRow_self {row : List String} (h : row.length = 4) :
    reindexRow CSV_FIELDS CSV_FIELDS row = row := by
  rcases row with _ | ⟨a, _ | ⟨b, _ | ⟨c, _ | ⟨d, _ | _⟩⟩⟩⟩ <;> simp at h
  rfl

theorem toStore_storeTable (df : Store) : (storeTable df).toStore = df := by
  induction df with
  | nil => rfl
  | cons r rs ih =>
    show _ :: (storeTable rs).toStore = r :: rs
    rw [ih]
    rfl

theorem rowCells_length (r : Row) : (rowCells r).length = 4 := rfl

theorem rowCells_toStoreRow {row : List String} (h : row.length = 4) :
    rowCells ⟨cellAt CSV_FIELDS row "Student Name",
      cellAt CSV_FIELDS row "Date", cellAt CSV_FIELDS row "Time",
      cellAt CSV_FIELDS row "Status"⟩ = row := by
  rcases row with _ | ⟨a, _ | ⟨b, _ | ⟨c, _ | ⟨d, _ | _⟩⟩⟩⟩ <;> simp at h
  rfl

/-- When the upload's columns are exactly the four canonical ones,
`import_csv` is the four-field deduplicated union of the store with the
uploaded rows. -/
theorem import_csv_canonical (up : Table) (df : Store)
    (hcols : up.cols = CSV_FIELDS)
    (hlen : ∀ row ∈ up.cells, row.length = 4) :
    import_csv up (storeTable df) =
      (storeTable (dropDuplicates (df ++ up.toStore)), true,
        "Import successful.") := by
  obtain ⟨cols, cells⟩ := up
  simp only at hcols hlen
  subst hcols
  have hu : unionCols CSV_FIELDS CSV_FIELDS = CSV_FIELDS := by decide
  have hstore : (df.map rowCells).map (reindexRow CSV_FIELDS CSV_FIELDS) =
      df.map rowCells := by
    rw [List.map_map]
    apply List.map_congr_left
    intro r _
    exact reindexRow_self (rowCells_length r)
  have hup : cells.map (reindexRow CSV_FIELDS CSV_FIELDS) =
      ((Table.mk CSV_FIELDS cells).toStore).map rowCells := by
    show _ = (cells.map _).map rowCells
    rw [List.map_map]
    apply List.map_congr_left
    intro row hrow
    exact (reindexRow_self (hlen row hrow)).trans
      (rowCells_toStoreRow (hlen row hrow)).symm
  have hcc : pd_concat (storeTable df) ⟨CSV_FIELDS, cells⟩ =
      ⟨CSV_FIELDS,
        (df ++ (Table.mk CSV_FIELDS cells).toStore).map rowCells⟩ := by
    simp only [pd_concat, storeTable, hu, Table.mk.injEq, List.map_append]
    refine ⟨trivial, ?_⟩
    rw [hstore, hup]
  simp only [import_csv]
  split
  · rw [hcc]
    dsimp only
    rw [dropDuplicates_map_injective rowCells rowCells_injective]
    rfl
  · rename_i hguard
    have hok : (CSV_FIELDS.all fun c => CSV_FIELDS.contains c) = true := by
      decide
    exact absurd hok hguard

/-- The import guard is the superset check on the four required fields. -/
theorem import_guard_iff (up : Table) :
    (CSV_FIELDS.all fun c => up.cols.contains c) = true ↔
      ∀ c ∈ CSV_FIELDS, c ∈ up.cols := by
  rw [List.all_eq_true]
  constructor
  · intro h c hc
    simpa using h c hc
  · intro h c hc
    simpa using h c hc

theorem add_student_preserves (name : String) (df : Store)
    (h : AtMostOneMark df) : AtMostOneMark (add_student name df).1 := by
  unfold add_student
  split
  · exact h
  · intro n d hd
    unfold marksFor
    rw [List.filter_append]
    have hplace : List.filter (isMark n d) [Row.mk name "" "" ""] = [] := by
      simp [isMark]
    rw [hplace, List.append_nil]
    exact h n d hd

theorem registerStudent_preserves (name : String) (df : Store)
    (h : AtMostOneMark df) : AtMostOneMark (registerStudent name df).1 := by
  unfold registerStudent
  split
  · exact add_student_preserves _ _ h
  · exact h

theorem mark_attendance_preserves (name status date_str time_str : String)
    (df : Store) (h : AtMostOneMark df) :
    AtMostOneMark (mark_attendance name status date_str time_str df).1 := by
  unfold mark_attendance
  split
  · exact h
  · rename_i hany
    intro n d hd
    unfold marksFor
    rw [List.filter_append]
    by_cases hnew : isMark n d ⟨name, date_str, time_str, status⟩
    · have hname : name = n ∧ date_str = d := by
        have := hnew
        simp only [isMark, Bool.and_eq_true, beq_iff_eq] at this
        exact ⟨this.1.1, this.1.2⟩
      have hempty : List.filter (isMark n d) df = [] := by
        rw [List.filter_eq_nil_iff]
        intro r hr hmark
        rw [← hname.1, ← hname.2] at hmark
        exact (List.any_eq_false.mp (Bool.not_eq_true _ ▸
          Bool.of_not_eq_true hany)) r hr hmark
      rw [hempty]
      simp [hnew]
    · have : List.filter (isMark n d) [Row.mk name date_str time_str status]
          = [] := by simp [hnew]
      rw [this, List.append_nil]
      exact h n d hd

theorem delete_preserves (sn dt tm st : String) (df : Store)
    (h : AtMostOneMark df) :
    AtMostOneMark (delete_attendance_record sn dt tm st df) := by
  intro n d hd
  have hsub : List.Sublist
      (marksFor n d (delete_attendance_record sn dt tm st df))
      (marksFor n d df) := by
    unfold marksFor delete_attendance_record
    exact List.Sublist.filter _ (List.filter_sublist df)
  exact le_trans hsub.length_le (h n d hd)

theorem reachable_invariant (s : Store) (h : ReachableStore s) :
    AtMostOneMark s := by
  induction h with
  | init => intro n d _; simp [marksFor]
  | register name _ ih => exact registerStudent_preserves _ _ ih
  | mark name status date_str time_str _ ih =>
      exact mark_attendance_preserves _ _ _ _ _ ih
  | delete sn dt tm st _ ih => exact delete_preserves _ _ _ _ _ ih

/-! ### Parse and aggregation lemmas -/

theorem parseDate_month_bounds {s : String} {y m d : Nat}
    (h : parseDate s = some (y, m, d)) : 1 ≤ m ∧ m ≤ 12 := by
  unfold parseDate at h
  split at h
  · split at h
    · dsimp only at h
      split at h
      · rename_i hguard
        simp only [Option.some.injEq, Prod.mk.injEq] at h
        obtain ⟨-, hm, -⟩ := h
        subst hm
        simp only [Bool.and_eq_true, decide_eq_true_eq] at hguard
        exact ⟨hguard.1.1.1, hguard.1.1.2⟩
      · exact absurd h (by simp)
    · exact absurd h (by simp)
  · exact absurd h (by simp)

theorem mem_statsFrom_spec {d : Store} {r : StatRow} (hr : r ∈ statsFrom d) :
    r.present = statusCount d r.studentName "Present" ∧
    r.absent = statusCount d r.studentName "Absent" ∧
    r.pct = (r.present : ℚ) / ((r.present : ℚ) + (r.absent : ℚ)) * 100 := by
  unfold statsFrom at hr
  rw [List.mem_map] at hr
  obtain ⟨s, -, hs⟩ := hr
  subst hs
  exact ⟨rfl, rfl, rfl⟩

theorem statusCount_datedRows (df : Store) (name status : String) :
    statusCount (datedRows df) name status =
      (df.filter (fun x => x.date != "" && (x.studentName == name &&
        x.status == status))).length := by
  unfold statusCount datedRows
  rw [List.filter_filter]
  congr 1
  apply List.filter_congr
  intro x _
  rw [Bool.and_comm]

theorem statsFrom_nil : statsFrom [] = [] := rfl

/-! ### Claims -/

/-- C7: `statsByMonth(13, year)` (an invalid month) returns the empty
result set, not an error, on every store: no parseable date has month 13,
so the month filter keeps nothing and the aggregation of an empty frame is
the empty statistics table. -/
theorem C7_statsByMonth_invalid_month (year : Nat) (df : Store) :
    attendance_stats_by_month 13 year df = [] := by
  unfold attendance_stats_by_month
  have hfil : (datedRows df).filter (fun r =>
      match parseDate r.date with
      | some (y, m, _) => m == 13 && y == year
      | none => false) = [] := by
    rw [List.filter_eq_nil_iff]
    intro r _
    rcases hp : parseDate r.date with _ | ⟨y, m, dd⟩
    · simp
    · have hb := (parseDate_month_bounds hp).2
      show ¬(m == 13 && y == year) = true
      simp only [Bool.and_eq_true, beq_iff_eq, not_and]
      intro hm
      exact absurd hm (by omega)
  rw [hfil]
  exact statsFrom_nil

/-- C9: `registerStudent(name)` fails with InvalidName when `name` is
empty or all whitespace, and the store is returned unchanged (no
placeholder row appended, nothing persisted). -/
theorem C9_invalid_name_rejected (name : String) (df : Store)
    (h : ∀ c ∈ name.data, c.isWhitespace) :
    registerStudent name df = (df, RegisterResult.InvalidName) := by
  have hps : pyStrip name = "" := (pyStrip_eq_empty_iff name).mpr h
  unfold registerStudent validate_student_name
  rw [hps]
  simp

/-- Witness for C9 at a concrete all-whitespace name. -/
theorem C9_invalid_name_rejected_witness :
    registerStudent "  " [⟨"Bob", "", "", ""⟩] =
      ([⟨"Bob", "", "", ""⟩], RegisterResult.InvalidName) :=
  C9_invalid_name_rejected "  " [⟨"Bob", "", "", ""⟩] (by decide)

/-- C3 fails as stated: a store persisted by a prior import can carry an
extra column (exactly the state the C2 counterexample import persists).
`export_csv` serializes it as-is, and re-importing the export into an
empty store keeps both rows that agree on all four required fields — they
differ in the extra column — instead of collapsing them to one: the
four-field deduplication of the stored rows has one row, the re-imported
store has two. -/
theorem C3_counterexample :
    (import_csv (export_csv ((import_csv ⟨CSV_FIELDS ++ ["Note"],
        [["Alice", "2024-01-01", "09:00:00", "Present", "x"],
         ["Alice", "2024-01-01", "09:00:00", "Present", "y"]]⟩
        (storeTable [])).1)) (storeTable [])).2.1 = true ∧
    (import_csv (export_csv ((import_csv ⟨CSV_FIELDS ++ ["Note"],
        [["Alice", "2024-01-01", "09:00:00", "Present", "x"],
         ["Alice", "2024-01-01", "09:00:00", "Present", "y"]]⟩
        (storeTable [])).1)) (storeTable [])).1.toStore =
      [⟨"Alice", "2024-01-01", "09:00:00", "Present"⟩,
       ⟨"Alice", "2024-01-01", "09:00:00", "Present"⟩] ∧
    dropDuplicates ((import_csv ⟨CSV_FIELDS ++ ["Note"],
        [["Alice", "2024-01-01", "09:00:00", "Present", "x"],
         ["Alice", "2024-01-01", "09:00:00", "Present", "y"]]⟩
        (storeTable [])).1.toStore) =
      [⟨"Alice", "2024-01-01", "09:00:00", "Present"⟩] := by
  decide

/-- C3 (amended): `exportAll()` serializes the loaded store as-is, and
`importRows()` of the export into an empty store persists the exported
rows deduplicated by equality on all exported columns.  For a store with
the canonical four columns this reproduces the original row multiset with
rows identical on all four fields collapsed to a single (first) occurrence
— each row's multiplicity becomes `min 1` of its original multiplicity —
while a store carrying extra columns from a prior import is deduplicated
over those columns too, so four-field-equal rows with different extra
cells stay distinct. -/
theorem C3_export_import_roundtrip :
    (∀ df : Store,
      import_csv (export_csv (storeTable df)) (storeTable []) =
        (storeTable (dropDuplicates df), true, "Import successful.") ∧
      ∀ r : Row, (dropDuplicates df).count r = min 1 (df.count r)) ∧
    (∀ t : Table, (∀ c ∈ CSV_FIELDS, c ∈ t.cols) →
      import_csv (export_csv t) (storeTable []) =
        (⟨unionCols CSV_FIELDS t.cols,
          dropDuplicates (t.cells.map (reindexRow t.cols
            (unionCols CSV_FIELDS t.cols)))⟩, true,
          "Import successful.")) := by
  constructor
  · intro df
    constructor
    · have hlen : ∀ row ∈ (storeTable df).cells, row.length = 4 := by
        intro row hrow
        simp only [storeTable] at hrow
        obtain ⟨r, -, rfl⟩ := List.mem_map.mp hrow
        exact rowCells_length r
      have h := import_csv_canonical (storeTable df) [] rfl hlen
      show import_csv (storeTable df) (storeTable []) = _
      rw [h, toStore_storeTable, List.nil_append]
    · intro r
      rw [count_dropDuplicates]
      by_cases hm : r ∈ df
      · have h1 : 0 < df.count r := List.count_pos_iff.mpr hm
        rw [if_pos hm]
        omega
      · have h0 : df.count r = 0 := List.count_eq_zero.mpr hm
        rw [if_neg hm, h0]
        rfl
  · intro t ht
    show import_csv t (storeTable []) = _
    unfold import_csv
    rw [if_pos ((import_guard_iff t).mpr ht)]
    rfl

/-- Witness for C3: a canonical one-row store and an extra-column table
round-tripped through export and import. -/
theorem C3_export_import_roundtrip_witness :
    import_csv (export_csv (storeTable [⟨"Ann", "", "", ""⟩]))
        (storeTable []) =
      (storeTable (dropDuplicates [⟨"Ann", "", "", ""⟩]), true,
        "Import successful.") ∧
    import_csv (export_csv (⟨CSV_FIELDS ++ ["Note"],
        [["Ann", "2024-01-01", "09:00:00", "Present", "x"]]⟩ : Table))
        (storeTable []) =
      (⟨unionCols CSV_FIELDS (CSV_FIELDS ++ ["Note"]),
        dropDuplicates ([["Ann", "2024-01-01", "09:00:00", "Present",
          "x"]].map (reindexRow (CSV_FIELDS ++ ["Note"])
          (unionCols CSV_FIELDS (CSV_FIELDS ++ ["Note"]))))⟩, true,
        "Import successful.") :=
  ⟨(C3_export_import_roundtrip.1 [⟨"Ann", "", "", ""⟩]).1,
   C3_export_import_roundtrip.2 ⟨CSV_FIELDS ++ ["Note"],
     [["Ann", "2024-01-01", "09:00:00", "Present", "x"]]⟩ (by decide)⟩

/-- C5: in `overallStats()` and the month/year-filtered variants, every
reported row has `present` = the number of non-empty-date rows of the
(filtered) set for that student with status Present, `absent` = the same
count for Absent, and `percentage = present / (present+absent) * 100`; in
particular a student with 3 Present and 1 Absent rows gets 75.0. -/
theorem C5_stats_formulas :
    (∀ (df : Store) (r : StatRow), r ∈ attendance_stats df →
      r.present = (df.filter (fun x => x.date != "" &&
        (x.studentName == r.studentName && x.status == "Present"))).length ∧
      r.absent = (df.filter (fun x => x.date != "" &&
        (x.studentName == r.studentName && x.status == "Absent"))).length ∧
      r.pct = (r.present : ℚ) / ((r.present : ℚ) + (r.absent : ℚ)) * 100) ∧
    (∀ (month year : Nat) (df : Store) (r : StatRow),
      r ∈ attendance_stats_by_month month year df →
      r.present = statusCount ((datedRows df).filter (fun x =>
          match parseDate x.date with
          | some (y, m, _) => m == month && y == year
          | none => false)) r.studentName "Present" ∧
      r.absent = statusCount ((datedRows df).filter (fun x =>
          match parseDate x.date with
          | some (y, m, _) => m == month && y == year
          | none => false)) r.studentName "Absent" ∧
      r.pct = (r.present : ℚ) / ((r.present : ℚ) + (r.absent : ℚ)) * 100) ∧
    (∀ (year : Nat) (df : Store) (r : StatRow),
      r ∈ attendance_stats_by_year year df →
      r.present = statusCount ((datedRows df).filter (fun x =>
          match parseDate x.date with
          | some (y, _, _) => y == year
          | none => false)) r.studentName "Present" ∧
      r.absent = statusCount ((datedRows df).filter (fun x =>
          match parseDate x.date with
          | some (y, _, _) => y == year
          | none => false)) r.studentName "Absent" ∧
      r.pct = (r.present : ℚ) / ((r.present : ℚ) + (r.absent : ℚ)) * 100) ∧
    attendance_stats
      [⟨"Alice", "2024-01-01", "09:00:00", "Present"⟩,
       ⟨"Alice", "2024-01-02", "09:01:00", "Present"⟩,
       ⟨"Alice", "2024-01-03", "09:02:00", "Present"⟩,
       ⟨"Alice", "2024-01-04", "09:03:00", "Absent"⟩] =
      [⟨"Alice", 3, 1, 75⟩] := by
  refine ⟨?_, ?_, ?_, ?_⟩
  · intro df r hr
    have h := mem_statsFrom_spec (d := datedRows df) hr
    exact ⟨h.1.trans (statusCount_datedRows df r.studentName "Present"),
      h.2.1.trans (statusCount_datedRows df r.studentName "Absent"), h.2.2⟩
  · intro month year df r hr
    exact mem_statsFrom_spec hr
  · intro year df r hr
    exact mem_statsFrom_spec hr
  · have h0 : attendance_stats
        [⟨"Alice", "2024-01-01", "09:00:00", "Present"⟩,
         ⟨"Alice", "2024-01-02", "09:01:00", "Present"⟩,
         ⟨"Alice", "2024-01-03", "09:02:00", "Present"⟩,
         ⟨"Alice", "2024-01-04", "09:03:00", "Absent"⟩] =
        [⟨"Alice", 3, 1,
          ((3 : ℕ) : ℚ) / (((3 : ℕ) : ℚ) + ((1 : ℕ) : ℚ)) * 100⟩] := rfl
    rw [h0]
    simp only [List.cons.injEq, StatRow.mk.injEq, and_true, true_and]
    norm_num

/-- Witness for C5 at a concrete one-row store (all three variants). -/
theorem C5_stats_formulas_witness :
    (StatRow.mk "Bob" 1 0 100 ∈
      attendance_stats [⟨"Bob", "2024-02-05", "08:00:00", "Present"⟩] ∧
      (StatRow.mk "Bob" 1 0 100).pct =
        ((StatRow.mk "Bob" 1 0 100).present : ℚ) /
          (((StatRow.mk "Bob" 1 0 100).present : ℚ) +
            ((StatRow.mk "Bob" 1 0 100).absent : ℚ)) * 100) ∧
    (StatRow.mk "Bob" 1 0 100 ∈
      attendance_stats_by_month 2 2024
        [⟨"Bob", "2024-02-05", "08:00:00", "Present"⟩] ∧
      (StatRow.mk "Bob" 1 0 100).present =
        statusCount ((datedRows
            [⟨"Bob", "2024-02-05", "08:00:00", "Present"⟩]).filter (fun x =>
          match parseDate x.date with
          | some (y, m, _) => m == 2 && y == 2024
          | none => false)) "Bob" "Present") ∧
    StatRow.mk "Bob" 1 0 100 ∈
      attendance_stats_by_year 2024
        [⟨"Bob", "2024-02-05", "08:00:00", "Present"⟩] := by
  have hpct : [StatRow.mk "Bob" 1 0
        (((1 : ℕ) : ℚ) / (((1 : ℕ) : ℚ) + ((0 : ℕ) : ℚ)) * 100)] =
      [StatRow.mk "Bob" 1 0 100] := by
    simp only [List.cons.injEq, StatRow.mk.injEq, and_true, true_and]
    norm_num
  have hs1 : attendance_stats [⟨"Bob", "2024-02-05", "08:00:00", "Present"⟩] =
      [StatRow.mk "Bob" 1 0 100] := by
    have h0 : attendance_stats
        [⟨"Bob", "2024-02-05", "08:00:00", "Present"⟩] =
        [StatRow.mk "Bob" 1 0
          (((1 : ℕ) : ℚ) / (((1 : ℕ) : ℚ) + ((0 : ℕ) : ℚ)) * 100)] := rfl
    rw [h0, hpct]
  have hs2 : attendance_stats_by_month 2 2024
      [⟨"Bob", "2024-02-05", "08:00:00", "Present"⟩] =
      [StatRow.mk "Bob" 1 0 100] := by
    have h0 : attendance_stats_by_month 2 2024
        [⟨"Bob", "2024-02-05", "08:00:00", "Present"⟩] =
        [StatRow.mk "Bob" 1 0
          (((1 : ℕ) : ℚ) / (((1 : ℕ) : ℚ) + ((0 : ℕ) : ℚ)) * 100)] := rfl
    rw [h0, hpct]
  have hs3 : attendance_stats_by_year 2024
      [⟨"Bob", "2024-02-05", "08:00:00", "Present"⟩] =
      [StatRow.mk "Bob" 1 0 100] := by
    have h0 : attendance_stats_by_year 2024
        [⟨"Bob", "2024-02-05", "08:00:00", "Present"⟩] =
        [StatRow.mk "Bob" 1 0
          (((1 : ℕ) : ℚ) / (((1 : ℕ) : ℚ) + ((0 : ℕ) : ℚ)) * 100)] := rfl
    rw [h0, hpct]
  have hm1 : StatRow.mk "Bob" 1 0 100 ∈
      attendance_stats [⟨"Bob", "2024-02-05", "08:00:00", "Present"⟩] := by
    rw [hs1]; exact List.mem_singleton.mpr rfl
  have hm2 : StatRow.mk "Bob" 1 0 100 ∈
      attendance_stats_by_month 2 2024
        [⟨"Bob", "2024-02-05", "08:00:00", "Present"⟩] := by
    rw [hs2]; exact List.mem_singleton.mpr rfl
  have hm3 : StatRow.mk "Bob" 1 0 100 ∈
      attendance_stats_by_year 2024
        [⟨"Bob", "2024-02-05", "08:00:00", "Present"⟩] := by
    rw [hs3]; exact List.mem_singleton.mpr rfl
  exact ⟨⟨hm1, (C5_stats_formulas.1 _ _ hm1).2.2⟩,
    ⟨hm2, (C5_stats_formulas.2.1 2 2024 _ _ hm2).1⟩, hm3⟩

/-- `pdEq` holds exactly between equal non-missing values. -/
theorem pdEq_true_iff (a b : String) :
    pdEq a b = true ↔ a = b ∧ b ≠ "" := by
  unfold pdEq
  constructor
  · intro h
    simp only [Bool.and_eq_true, beq_iff_eq, bne_iff_ne, ne_eq] at h
    exact ⟨h.1, h.1 ▸ h.2⟩
  · rintro ⟨rfl, hb⟩
    simp [hb]

/-- A row matches the four `delete_attendance_record` comparisons exactly
when its four fields equal the four given values and every given value is
non-missing (then the fields are non-missing too). -/
theorem delete_match_iff (sn d t st : String) (r : Row) :
    (pdEq r.studentName sn && pdEq r.date d && pdEq r.time t &&
      pdEq r.status st) = true ↔
      (r.studentName = sn ∧ r.date = d ∧ r.time = t ∧ r.status = st ∧
        sn ≠ "" ∧ d ≠ "" ∧ t ≠ "" ∧ st ≠ "") := by
  simp only [Bool.and_eq_true, pdEq_true_iff]
  constructor
  · rintro ⟨⟨⟨⟨h1, h1n⟩, h2, h2n⟩, h3, h3n⟩, h4, h4n⟩
    exact ⟨h1, h2, h3, h4, h1n, h2n, h3n, h4n⟩
  · rintro ⟨h1, h2, h3, h4, h1n, h2n, h3n, h4n⟩
    exact ⟨⟨⟨⟨h1, h1n⟩, h2, h2n⟩, h3, h3n⟩, h4, h4n⟩

/-- The keep-predicate of `delete_attendance_record` is true exactly on
rows that do not match in the sense of `delete_match_iff`. -/
theorem delete_pred_true_iff (sn d t st : String) (r : Row) :
    (!(pdEq r.studentName sn && pdEq r.date d && pdEq r.time t &&
        pdEq r.status st)) = true ↔
      ¬(r.studentName = sn ∧ r.date = d ∧ r.time = t ∧ r.status = st ∧
        sn ≠ "" ∧ d ≠ "" ∧ t ≠ "" ∧ st ≠ "") := by
  rw [Bool.not_eq_true', Bool.eq_false_iff]
  exact not_congr (delete_match_iff sn d t st r)

/-- C6 fails as stated: a loaded row field that is missing (`NaN`, read
from an empty cell) never satisfies a pandas `==` comparison, so a row
whose four fields all equal the four given values survives the deletion
whenever one of those values is missing — an imported row with an empty
time cannot be deleted through the dashboard (which passes
`rec["Time"] = NaN`), and a placeholder row cannot be deleted by passing
its own field values. -/
theorem C6_counterexample :
    delete_attendance_record "A" "2024-01-01" "" "Present"
        [⟨"A", "2024-01-01", "", "Present"⟩] =
      [⟨"A", "2024-01-01", "", "Present"⟩] ∧
    delete_attendance_record "B" "" "" "" [⟨"B", "", "", ""⟩] =
      [⟨"B", "", "", ""⟩] := by
  decide

/-- C6 (amended): `deleteRecord` removes exactly the rows whose four
fields all equal the four given values with every compared value
non-missing; a missing value (`NaN`, encoded `""`) on either side of any
comparison never matches, so rows with an empty field — placeholders,
imported rows with a missing time — are never deleted, and a missing
argument matches no row.  The result is a sublist of the store (relative
order preserved), every non-matching row keeps its multiplicity, and when
no row matches the store is returned unchanged (the operation is total:
there is no error case). -/
theorem C6_delete_exact_match (sn d t st : String) (df : Store) :
    List.Sublist (delete_attendance_record sn d t st df) df ∧
    (∀ r : Row, (r.studentName = sn ∧ r.date = d ∧ r.time = t ∧
        r.status = st ∧ sn ≠ "" ∧ d ≠ "" ∧ t ≠ "" ∧ st ≠ "") →
      r ∉ delete_attendance_record sn d t st df) ∧
    (∀ r : Row, ¬(r.studentName = sn ∧ r.date = d ∧ r.time = t ∧
        r.status = st ∧ sn ≠ "" ∧ d ≠ "" ∧ t ≠ "" ∧ st ≠ "") →
      (delete_attendance_record sn d t st df).count r = df.count r) ∧
    ((∀ r ∈ df, ¬(r.studentName = sn ∧ r.date = d ∧ r.time = t ∧
        r.status = st ∧ sn ≠ "" ∧ d ≠ "" ∧ t ≠ "" ∧ st ≠ "")) →
      delete_attendance_record sn d t st df = df) ∧
    (∀ r : Row, (r.studentName = "" ∨ r.date = "" ∨ r.time = "" ∨
        r.status = "") →
      (delete_attendance_record sn d t st df).count r = df.count r) ∧
    ((sn = "" ∨ d = "" ∨ t = "" ∨ st = "") →
      delete_attendance_record sn d t st df = df) := by
  have hkeep : ∀ r : Row,
      ¬(r.studentName = sn ∧ r.date = d ∧ r.time = t ∧ r.status = st ∧
        sn ≠ "" ∧ d ≠ "" ∧ t ≠ "" ∧ st ≠ "") →
      (delete_attendance_record sn d t st df).count r = df.count r :=
    fun r hr => List.count_filter ((delete_pred_true_iff sn d t st r).mpr hr)
  have hall : ∀ (h : ∀ r ∈ df, ¬(r.studentName = sn ∧ r.date = d ∧
      r.time = t ∧ r.status = st ∧ sn ≠ "" ∧ d ≠ "" ∧ t ≠ "" ∧
      st ≠ "")), delete_attendance_record sn d t st df = df := by
    intro h
    apply List.filter_eq_self.mpr
    intro r hr
    exact (delete_pred_true_iff sn d t st r).mpr (h r hr)
  refine ⟨List.filter_sublist df, ?_, hkeep, hall, ?_, ?_⟩
  · intro r hr hmem
    have hp := (List.mem_filter.mp hmem).2
    exact (delete_pred_true_iff sn d t st r).mp hp hr
  · intro r hr
    apply hkeep
    rintro ⟨h1, h2, h3, h4, h1n, h2n, h3n, h4n⟩
    rcases hr with h | h | h | h
    · exact h1n (h1.symm.trans h)
    · exact h2n (h2.symm.trans h)
    · exact h3n (h3.symm.trans h)
    · exact h4n (h4.symm.trans h)
  · intro hargs
    apply hall
    intro r _
    rintro ⟨_, _, _, _, h1n, h2n, h3n, h4n⟩
    rcases hargs with h | h | h | h
    · exact h1n h
    · exact h2n h
    · exact h3n h
    · exact h4n h

/-- Witness for C6 on a concrete two-row store: the fully matching row is
removed, the placeholder row keeps its multiplicity (both as a
non-matching row and as a row with empty fields), a zero-match deletion
and a missing-argument deletion leave the store unchanged. -/
theorem C6_delete_exact_match_witness :
    (⟨"A", "2024-01-01", "09:00:00", "Present"⟩ : Row) ∉
      delete_attendance_record "A" "2024-01-01" "09:00:00" "Present"
        [⟨"A", "2024-01-01", "09:00:00", "Present"⟩, ⟨"B", "", "", ""⟩] ∧
    (delete_attendance_record "A" "2024-01-01" "09:00:00" "Present"
        [⟨"A", "2024-01-01", "09:00:00", "Present"⟩,
         ⟨"B", "", "", ""⟩]).count ⟨"B", "", "", ""⟩ =
      ([⟨"A", "2024-01-01", "09:00:00", "Present"⟩,
        ⟨"B", "", "", ""⟩] : Store).count ⟨"B", "", "", ""⟩ ∧
    delete_attendance_record "Z" "2024-01-01" "09:00:00" "Present"
        [⟨"A", "2024-01-01", "09:00:00", "Present"⟩, ⟨"B", "", "", ""⟩] =
      [⟨"A", "2024-01-01", "09:00:00", "Present"⟩, ⟨"B", "", "", ""⟩] ∧
    delete_attendance_record "A" "" "09:00:00" "Present"
        [⟨"A", "2024-01-01", "09:00:00", "Present"⟩, ⟨"B", "", "", ""⟩] =
      [⟨"A", "2024-01-01", "09:00:00", "Present"⟩, ⟨"B", "", "", ""⟩] :=
  ⟨(C6_delete_exact_match "A" "2024-01-01" "09:00:00" "Present"
      [⟨"A", "2024-01-01", "09:00:00", "Present"⟩,
       ⟨"B", "", "", ""⟩]).2.1 _ (by decide),
   (C6_delete_exact_match "A" "2024-01-01" "09:00:00" "Present"
      [⟨"A", "2024-01-01", "09:00:00", "Present"⟩,
       ⟨"B", "", "", ""⟩]).2.2.2.2.1 _ (by decide),
   (C6_delete_exact_match "Z" "2024-01-01" "09:00:00" "Present"
      [⟨"A", "2024-01-01", "09:00:00", "Present"⟩,
       ⟨"B", "", "", ""⟩]).2.2.2.1 (by decide),
   (C6_delete_exact_match "A" "" "09:00:00" "Present"
      [⟨"A", "2024-01-01", "09:00:00", "Present"⟩,
       ⟨"B", "", "", ""⟩]).2.2.2.2.2 (by decide)⟩

/-- C4 fails as stated: (i) on a store that already contains the name, the
first of the two `registerStudent` calls yields AlreadyExists, not Added;
(ii) for a padded name (non-empty, not all whitespace) on the empty store
the registration succeeds but `listStudents()` contains the *stripped*
name, so it does not contain `n` itself. -/
theorem C4_counterexample :
    (registerStudent "Alice" [⟨"Alice", "", "", ""⟩]).2 ≠
      RegisterResult.Added ∧
    ((registerStudent " Alice " []).2 = RegisterResult.Added ∧
      " Alice " ∉ get_students (registerStudent " Alice " []).1) := by
  decide

/-- C4 (amended): for every name `n` that passes validation and whose
stripped form is not yet among the store's student names, registering
twice yields Added then AlreadyExists, the second call leaves the store
unchanged, and afterwards `listStudents()` contains `n.strip()` exactly
once, the whole listing being sorted ascending. -/
theorem C4_register_twice (n : String) (s : Store)
    (hval : validate_student_name n = true)
    (hfresh : pyStrip n ∉ s.map Row.studentName) :
    (registerStudent n s).2 = RegisterResult.Added ∧
    (registerStudent n (registerStudent n s).1).2 =
      RegisterResult.AlreadyExists ∧
    (registerStudent n (registerStudent n s).1).1 =
      (registerStudent n s).1 ∧
    (get_students (registerStudent n s).1).count (pyStrip n) = 1 ∧
    List.Sorted (· ≤ ·) (get_students (registerStudent n s).1) := by
  have hps : pyStrip n ≠ "" := by
    simp only [validate_student_name, Bool.and_eq_true, decide_eq_true_eq]
      at hval
    exact hval.2
  have hreg1 : registerStudent n s =
      (s ++ [Row.mk (pyStrip n) "" "" ""], RegisterResult.Added) := by
    unfold registerStudent add_student
    rw [if_pos hval, if_neg hfresh]
    rfl
  have hmem2 : pyStrip n ∈
      (s ++ [Row.mk (pyStrip n) "" "" ""]).map Row.studentName := by
    rw [List.map_append]
    apply List.mem_append.mpr
    right
    simp
  have hreg2 : registerStudent n (s ++ [Row.mk (pyStrip n) "" "" ""]) =
      (s ++ [Row.mk (pyStrip n) "" "" ""], RegisterResult.AlreadyExists) := by
    unfold registerStudent add_student
    rw [if_pos hval, if_pos hmem2]
    rfl
  refine ⟨by rw [hreg1], ?_, ?_, ?_, ?_⟩
  · rw [hreg1]
    dsimp only
    rw [hreg2]
  · rw [hreg1]
    dsimp only
    rw [hreg2]
  · rw [hreg1]
    dsimp only
    unfold get_students
    rw [(List.perm_insertionSort (· ≤ ·) _).count_eq]
    rw [List.count_filter (by
      rw [pyStrip_idem]
      exact decide_eq_true hps)]
    exact List.count_eq_one_of_mem (List.nodup_dedup _)
      (List.mem_dedup.mpr hmem2)
  · rw [hreg1]
    dsimp only
    exact List.sorted_insertionSort _ _

/-- Witness for C4 with a fresh name on a non-empty store. -/
theorem C4_register_twice_witness :
    (registerStudent "Bob" [⟨"Alice", "", "", ""⟩]).2 =
      RegisterResult.Added ∧
    (registerStudent "Bob"
      (registerStudent "Bob" [⟨"Alice", "", "", ""⟩]).1).2 =
      RegisterResult.AlreadyExists ∧
    (registerStudent "Bob"
      (registerStudent "Bob" [⟨"Alice", "", "", ""⟩]).1).1 =
      (registerStudent "Bob" [⟨"Alice", "", "", ""⟩]).1 ∧
    (get_students (registerStudent "Bob"
      [⟨"Alice", "", "", ""⟩]).1).count (pyStrip "Bob") = 1 ∧
    List.Sorted (· ≤ ·)
      (get_students (registerStudent "Bob" [⟨"Alice", "", "", ""⟩]).1) :=
  C4_register_twice "Bob" [⟨"Alice", "", "", ""⟩] (by decide) (by decide)

/-- C10 fails as stated for an all-whitespace name: marking attendance for
a name made of spaces (present in no row) appends the row and reports
Marked, but the name does not subsequently appear in `listStudents()`,
which filters out names whose `strip()` is empty. -/
theorem C10_counterexample :
    (mark_attendance "   " "Present" "2024-05-01" "09:00:00" []).2 = true ∧
    "   " ∉ get_students
      (mark_attendance "   " "Present" "2024-05-01" "09:00:00" []).1 := by
  decide

/-- C10 (amended): `markAttendance` has no registration precondition: for
a name that occurs in no row and is not entirely whitespace, it appends a
new attendance row, returns Marked, and the name subsequently appears in
`listStudents()` — marking attendance implicitly registers the student. -/
theorem C10_mark_no_precondition (name status d t : String) (s : Store)
    (hfresh : ∀ r ∈ s, r.studentName ≠ name)
    (hname : pyStrip name ≠ "") :
    mark_attendance name status d t s =
      (s ++ [Row.mk name d t status], true) ∧
    name ∈ get_students (s ++ [Row.mk name d t status]) := by
  have hany : s.any (isMark name d) = false := by
    rw [List.any_eq_false]
    intro r hr
    simp only [isMark, Bool.and_eq_true, beq_iff_eq]
    intro hx
    exact hfresh r hr hx.1.1
  constructor
  · unfold mark_attendance
    rw [if_neg (by simp [hany])]
  · unfold get_students
    rw [(List.perm_insertionSort _ _).mem_iff, List.mem_filter]
    refine ⟨List.mem_dedup.mpr ?_, decide_eq_true hname⟩
    rw [List.map_append]
    apply List.mem_append.mpr
    right
    simp

/-- Witness for C10 with a fresh, non-blank name. -/
theorem C10_mark_no_precondition_witness :
    mark_attendance "Bob" "Present" "2024-03-04" "08:15:00"
        [⟨"Alice", "", "", ""⟩] =
      ([⟨"Alice", "", "", ""⟩] ++
        [Row.mk "Bob" "2024-03-04" "08:15:00" "Present"], true) ∧
    "Bob" ∈ get_students ([⟨"Alice", "", "", ""⟩] ++
      [Row.mk "Bob" "2024-03-04" "08:15:00" "Present"]) :=
  C10_mark_no_precondition "Bob" "Present" "2024-03-04" "08:15:00"
    [⟨"Alice", "", "", ""⟩] (by decide) (by decide)

/-- C1 fails as stated: `importRows` does not preserve the one-mark-per-day
invariant.  Starting from the empty store (which satisfies it), importing
two Present rows for the same student and date — differing only in time,
so `drop_duplicates` keeps both — succeeds and yields a store with two
Present rows for ("Alice", "2024-01-01"). -/
theorem C1_counterexample :
    AtMostOneMark [] ∧
    (import_csv ⟨CSV_FIELDS,
      [["Alice", "2024-01-01", "09:00:00", "Present"],
       ["Alice", "2024-01-01", "10:00:00", "Present"]]⟩
      (storeTable [])).2.1 = true ∧
    ¬ AtMostOneMark ((import_csv ⟨CSV_FIELDS,
      [["Alice", "2024-01-01", "09:00:00", "Present"],
       ["Alice", "2024-01-01", "10:00:00", "Present"]]⟩
      (storeTable [])).1.toStore) := by
  refine ⟨?_, by decide, ?_⟩
  · intro n d _
    simp [marksFor]
  · intro h
    have h2 := h "Alice" "2024-01-01" (by decide)
    revert h2
    decide

/-- C1 (amended): the invariant — at most one row with status in
{Present, Absent} per (studentName, non-empty date) pair — holds in every
store reachable from the empty store through `registerStudent`,
`markAttendance` and `deleteRecord` (each of which preserves it;
`importRows` does not, see the counterexample), and once a Present/Absent
mark exists for a student and day, any further `markAttendance` call for
that student on that day returns AlreadyMarked and leaves the store, hence
its row count, unchanged. -/
theorem C1_invariant :
    (∀ s : Store, ReachableStore s → AtMostOneMark s) ∧
    (∀ (name st st' d t t' : String) (s : Store),
      st = "Present" ∨ st = "Absent" →
      mark_attendance name st' d t' (mark_attendance name st d t s).1 =
        ((mark_attendance name st d t s).1, false)) := by
  constructor
  · exact reachable_invariant
  · intro name st st' d t t' s hst
    have hmem : (mark_attendance name st d t s).1.any (isMark name d) =
        true := by
      unfold mark_attendance
      split
      · rename_i hany
        exact hany
      · dsimp only
        rw [List.any_append, Bool.or_eq_true]
        right
        simp only [List.any_cons, List.any_nil, Bool.or_false]
        rcases hst with rfl | rfl <;> simp [isMark]
    generalize hX : (mark_attendance name st d t s).1 = X at hmem ⊢
    unfold mark_attendance
    rw [if_pos hmem]

/-- Witness for C1: a reachable two-operation store satisfies the
invariant, and a same-day second mark is rejected without mutation. -/
theorem C1_invariant_witness :
    AtMostOneMark (mark_attendance "Alice" "Present" "2024-01-01" "09:00:00"
      (registerStudent "Alice" []).1).1 ∧
    mark_attendance "Alice" "Absent" "2024-01-01" "10:00:00"
        (mark_attendance "Alice" "Present" "2024-01-01" "09:00:00" []).1 =
      ((mark_attendance "Alice" "Present" "2024-01-01" "09:00:00" []).1,
        false) :=
  ⟨C1_invariant.1 _ (ReachableStore.mark "Alice" "Present" "2024-01-01"
      "09:00:00" (ReachableStore.register "Alice" ReachableStore.init)),
   C1_invariant.2 "Alice" "Present" "Absent" "2024-01-01" "09:00:00"
      "10:00:00" [] (Or.inl rfl)⟩

/-- C2 fails as stated: importing a file that carries an extra column
succeeds but persists the extra column (it is not ignored), and two rows
equal on the four required fields but different in the extra column both
survive `drop_duplicates` — the persisted store then holds the same
four-field row twice instead of collapsing it to one. -/
theorem C2_counterexample :
    (import_csv ⟨CSV_FIELDS ++ ["Note"],
      [["Alice", "2024-01-01", "09:00:00", "Present", "x"],
       ["Alice", "2024-01-01", "09:00:00", "Present", "y"]]⟩
      (storeTable [])).2.1 = true ∧
    (import_csv ⟨CSV_FIELDS ++ ["Note"],
      [["Alice", "2024-01-01", "09:00:00", "Present", "x"],
       ["Alice", "2024-01-01", "09:00:00", "Present", "y"]]⟩
      (storeTable [])).1.toStore =
      [⟨"Alice", "2024-01-01", "09:00:00", "Present"⟩,
       ⟨"Alice", "2024-01-01", "09:00:00", "Present"⟩] ∧
    (import_csv ⟨CSV_FIELDS ++ ["Note"],
      [["Alice", "2024-01-01", "09:00:00", "Present", "x"],
       ["Alice", "2024-01-01", "09:00:00", "Present", "y"]]⟩
      (storeTable [])).1.cols ≠ CSV_FIELDS := by
  decide

/-- C2 (amended): `importRows` fails with SchemaMismatch, persisting
nothing, exactly when the upload's column set is not a superset of the
four required fields.  Otherwise it reports success and persists the
concatenation of the store and the upload over the union of the two
column sets — extra upload columns are persisted, not ignored, absent
cells filled with the missing value — deduplicated by equality on all
columns of that union (first occurrence kept).  Rows equal on just the
four fields therefore collapse to one when the upload's columns are
exactly the four required fields, as in the canonical export format. -/
theorem C2_import_behavior (up orig : Table) :
    (¬ (∀ c ∈ CSV_FIELDS, c ∈ up.cols) →
      import_csv up orig = (orig, false, "CSV schema mismatch.")) ∧
    ((∀ c ∈ CSV_FIELDS, c ∈ up.cols) →
      import_csv up orig =
        (⟨unionCols orig.cols up.cols,
          dropDuplicates (pd_concat orig up).cells⟩, true,
          "Import successful.")) ∧
    (up.cols = CSV_FIELDS → (∀ row ∈ up.cells, row.length = 4) →
      ∀ df : Store,
        import_csv up (storeTable df) =
          (storeTable (dropDuplicates (df ++ up.toStore)), true,
            "Import successful.")) := by
  refine ⟨?_, ?_, fun h1 h2 df => import_csv_canonical up df h1 h2⟩
  · intro h
    unfold import_csv
    rw [if_neg (fun hc => h ((import_guard_iff up).mp hc))]
  · intro h
    unfold import_csv
    rw [if_pos ((import_guard_iff up).mpr h)]
    rfl

/-- Witness for C2: a rejected upload missing three columns, and an
accepted canonical four-column upload. -/
theorem C2_import_behavior_witness :
    import_csv ⟨["Student Name"], [["Alice"]]⟩ (storeTable []) =
      (storeTable [], false, "CSV schema mismatch.") ∧
    import_csv (storeTable [⟨"Bob", "", "", ""⟩]) (storeTable []) =
      (⟨unionCols (storeTable []).cols
          (storeTable [⟨"Bob", "", "", ""⟩]).cols,
        dropDuplicates (pd_concat (storeTable [])
          (storeTable [⟨"Bob", "", "", ""⟩])).cells⟩, true,
        "Import successful.") ∧
    import_csv (storeTable [⟨"Bob", "", "", ""⟩]) (storeTable []) =
      (storeTable (dropDuplicates ([] ++
        (storeTable [⟨"Bob", "", "", ""⟩]).toStore)), true,
        "Import successful.") :=
  ⟨(C2_import_behavior ⟨["Student Name"], [["Alice"]]⟩ (storeTable [])).1
      (by decide),
   (C2_import_behavior (storeTable [⟨"Bob", "", "", ""⟩])
      (storeTable [])).2.1 (by decide),
   (C2_import_behavior (storeTable [⟨"Bob", "", "", ""⟩])
      (storeTable [])).2.2 rfl (by decide) []⟩
